import Mathlib

/-
Verification of the debtor_match companies system: the PostgreSQL schema in
src/init-db.sql (companies table, search-vector trigger), the React Native
clients in src/react-native-app/App.js and src/uk-companies-app/App.js
(formatAddress, status modal), and — where the FastAPI backend app.py is not
part of the sources — models written from the specification (ingestion job
controller, upsert sink, search and lookup endpoints).
-/

/-- A PostgreSQL tsvector value, modelled by the source text handed to
to_tsvector; the collaborator's tokenisation is outside this repository, so two
vectors are equal exactly when their source texts are. -/
structure TsVector where
  source : String
  deriving DecidableEq, Repr

/-- PostgreSQL to_tsvector, modelled as tracking the source text (the first
argument is the text-search configuration, 'english' in init-db.sql). -/
def to_tsvector (_config : String) (text : String) : TsVector :=
  ⟨text⟩

/-- One row of the companies table from src/init-db.sql lines 17-35: every
column other than the key is nullable, and search_vector is a nullable
TSVECTOR column maintained by the trigger. -/
structure CompanyRow where
  company_number : Option String
  company_name : Option String
  reg_address_care_of : Option String
  reg_address_po_box : Option String
  reg_address_line_1 : Option String
  reg_address_line_2 : Option String
  reg_address_town : Option String
  reg_address_county : Option String
  reg_address_country : Option String
  reg_address_postcode : Option String
  company_category : Option String
  company_status : Option String
  country_of_origin : Option String
  incorporation_date : Option String
  sic_codes : Option String
  search_vector : Option TsVector
  deriving DecidableEq, Repr

/-- SQL COALESCE(x, '') as used by the trigger function. -/
def coalesce (v : Option String) : String :=
  v.getD ""

/-- The trigger function companies_search_vector_update of src/init-db.sql
lines 41-61: sets NEW.search_vector to to_tsvector('english', ...) over the
coalesced concatenation of the fourteen textual columns, separated by single
spaces, and returns NEW. -/
def companies_search_vector_update (new : CompanyRow) : CompanyRow :=
  { new with
    search_vector := some (to_tsvector "english"
      (coalesce new.company_name ++ " " ++
       coalesce new.company_number ++ " " ++
       coalesce new.reg_address_care_of ++ " " ++
       coalesce new.reg_address_po_box ++ " " ++
       coalesce new.reg_address_line_1 ++ " " ++
       coalesce new.reg_address_line_2 ++ " " ++
       coalesce new.reg_address_town ++ " " ++
       coalesce new.reg_address_county ++ " " ++
       coalesce new.reg_address_country ++ " " ++
       coalesce new.reg_address_postcode ++ " " ++
       coalesce new.company_category ++ " " ++
       coalesce new.company_status ++ " " ++
       coalesce new.country_of_origin ++ " " ++
       coalesce new.sic_codes)) }

/-- Writing a row to the companies table: the trigger
companies_search_vector_update_trigger of src/init-db.sql lines 67-69 fires
BEFORE INSERT OR UPDATE, FOR EACH ROW, so every stored row passes through
companies_search_vector_update. -/
def writeRow (row : CompanyRow) : CompanyRow :=
  companies_search_vector_update row

/-- The row in which every nullable column is NULL. -/
def allNullRow : CompanyRow :=
  ⟨none, none, none, none, none, none, none, none,
   none, none, none, none, none, none, none, none⟩

/-- A registered-office address as the clients consume it (App.js): each field
optional. -/
structure Address where
  care_of : Option String
  po_box : Option String
  address_line_1 : Option String
  address_line_2 : Option String
  town : Option String
  county : Option String
  country : Option String
  postcode : Option String
  deriving DecidableEq, Repr

/-- A normalized company record as produced by the parser: the business key
company_number is mandatory (rows without it are skipped upstream), all other
attributes optional. -/
structure CompanyRecord where
  company_number : String
  company_name : Option String
  address : Address
  company_category : Option String
  company_status : Option String
  country_of_origin : Option String
  incorporation_date : Option String
  sic_codes : Option String
  deriving DecidableEq, Repr

/-- The row a caller submits for a record: every attribute copied across and
search_vector left NULL — callers never set it; the trigger computes it on
write. -/
def toRow (rec : CompanyRecord) : CompanyRow :=
  { company_number := some rec.company_number
    company_name := rec.company_name
    reg_address_care_of := rec.address.care_of
    reg_address_po_box := rec.address.po_box
    reg_address_line_1 := rec.address.address_line_1
    reg_address_line_2 := rec.address.address_line_2
    reg_address_town := rec.address.town
    reg_address_county := rec.address.county
    reg_address_country := rec.address.country
    reg_address_postcode := rec.address.postcode
    company_category := rec.company_category
    company_status := rec.company_status
    country_of_origin := rec.country_of_origin
    incorporation_date := rec.incorporation_date
    sic_codes := rec.sic_codes
    search_vector := none }

/-- Does a stored row carry the key k (company_number = some k)? -/
def hasKey (k : String) (r : CompanyRow) : Bool :=
  r.company_number == some k

/-- The non-null keys of a store, in row order. -/
def keysOf (s : List CompanyRow) : List String :=
  s.filterMap (fun r => r.company_number)

/-- Modelled from the spec: the Upsert Sink of the absent backend app.py —
insert if the key is absent, overwrite the attributes if present (the UNIQUE
constraint on company_number in src/init-db.sql line 19 rules out a duplicate
insert); the written row passes through the schema trigger (writeRow). -/
def upsert (rec : CompanyRecord) (s : List CompanyRow) : List CompanyRow :=
  if s.any (hasKey rec.company_number) then
    s.map (fun r => if hasKey rec.company_number r then writeRow (toRow rec) else r)
  else
    s ++ [writeRow (toRow rec)]

/-- Ingesting a dataset: upserting each record in order. -/
def ingest (ds : List CompanyRecord) (s : List CompanyRow) : List CompanyRow :=
  ds.foldl (fun t rec => upsert rec t) s

/-- First stored row with the given key. -/
def lookupRow (k : String) (s : List CompanyRow) : Option CompanyRow :=
  s.find? (hasKey k)

/-- Storage-level failures surfaced by the collaborator for a single row. -/
inductive StorageError
  | ValueTooLong
  deriving DecidableEq, Repr

/-- Does a string fit in a VARCHAR(limit) column? -/
def varcharFits (limit : Nat) (s : String) : Bool :=
  decide (s.length ≤ limit)

/-- An upsert as checked by the storage collaborator: company_number is
declared VARCHAR(10) in src/init-db.sql line 19, so a key longer than 10
characters is rejected. -/
def checkedUpsert (rec : CompanyRecord) (s : List CompanyRow) :
    Except StorageError (List CompanyRow) :=
  if varcharFits 10 rec.company_number then
    .ok (upsert rec s)
  else
    .error .ValueTooLong

/-- Job status values of the ingestion state machine (spec section 4.1). -/
inductive JobStatus
  | Idle
  | Downloading
  | Processing
  | Completed
  | Failed
  deriving DecidableEq, Repr

/-- The IngestJob record of spec section 3. -/
structure IngestJob where
  status : JobStatus
  startedAt : Option Nat
  totalRecords : Nat
  processedRecords : Nat
  errorRecords : Nat
  lastError : Option String
  deriving DecidableEq, Repr

/-- The initial job: Idle with zeroed counters. -/
def initialJob : IngestJob :=
  ⟨.Idle, none, 0, 0, 0, none⟩

/-- Is a run active: status Downloading or Processing. -/
def jobActive (s : JobStatus) : Bool :=
  s == .Downloading || s == .Processing

/-- Outcome of a StartIngestion call. -/
inductive StartResult
  | Accepted
  | AlreadyRunning
  deriving DecidableEq, Repr

/-- The job state created by an accepted start at time now: Downloading,
startedAt recorded, counters zeroed. -/
def runningJob (now : Nat) : IngestJob :=
  ⟨.Downloading, some now, 0, 0, 0, none⟩

/-- Modelled from the spec: StartIngestion of the absent backend app.py
(spec section 4.1) — fails with AlreadyRunning and changes nothing if the
current status is Downloading or Processing; otherwise atomically transitions
to Downloading, records startedAt and zeroes the counters. -/
def startIngestion (now : Nat) (j : IngestJob) : StartResult × IngestJob :=
  if jobActive j.status then
    (.AlreadyRunning, j)
  else
    (.Accepted, runningJob now)

/-- Modelled from the spec: concurrent StartIngestion calls are serialized by
the atomic check-and-transition (spec sections 4.1 and 5), so a batch of n
simultaneous calls is a sequence of n atomic calls against the evolving job
state; returns the results in order and the final state. -/
def serializeStarts (now : Nat) : Nat → IngestJob → List StartResult × IngestJob
  | 0, j => ([], j)
  | n + 1, j =>
    let p := startIngestion now j
    let q := serializeStarts now n p.2
    (p.1 :: q.1, q.2)

/-- Modelled from the spec: completionPercentage is derived, not stored — 0 if
totalRecords is 0 (unknown), else 100 * processedRecords / totalRecords
clamped to the interval from 0 to 100 (spec section 4.5). -/
def completionPercentage (processed total : Nat) : Nat :=
  if total = 0 then 0 else min (100 * processed / total) 100

/-- A status snapshot as served to pollers: the job fields plus the derived
completion percentage. -/
structure StatusSnapshot where
  status : JobStatus
  startedAt : Option Nat
  processedRecords : Nat
  totalRecords : Nat
  completionPercentage : Nat
  errorRecords : Nat
  lastError : Option String
  deriving DecidableEq, Repr

/-- Modelled from the spec: GetStatus — an immutable snapshot of the current
job, with completionPercentage computed from the counters, never stored on the
job itself. -/
def getStatus (j : IngestJob) : StatusSnapshot :=
  ⟨j.status, j.startedAt, j.processedRecords, j.totalRecords,
   completionPercentage j.processedRecords j.totalRecords,
   j.errorRecords, j.lastError⟩

/-- JSON error body of a rejected start. -/
structure ErrorBody where
  error : String
  deriving DecidableEq, Repr

/-- Modelled from the spec: the POST /ingest/start route of the absent backend
(spec section 6) — 202 Accepted with no body on an accepted start, 409
Conflict with body error = "already running" when AlreadyRunning. -/
def postIngestStart (now : Nat) (j : IngestJob) :
    (Nat × Option ErrorBody) × IngestJob :=
  match startIngestion now j with
  | (.Accepted, j2) => ((202, none), j2)
  | (.AlreadyRunning, j2) => ((409, some ⟨"already running"⟩), j2)

/-- Errors surfaced directly to API callers. -/
inductive ApiError
  | InvalidArgument
  | NotFound
  deriving DecidableEq, Repr

/-- A search response: the page of companies plus the total match count. -/
structure SearchResponse where
  companies : List CompanyRow
  total : Nat
  deriving DecidableEq, Repr

/-- The key of a stored row for ordering (NULL sorts as the empty string). -/
def keyOf (r : CompanyRow) : String :=
  r.company_number.getD ""

/-- Insert a row into a list sorted by ascending company_number. -/
def insertByNumber (r : CompanyRow) : List CompanyRow → List CompanyRow
  | [] => [r]
  | x :: xs =>
    if (compare (keyOf r) (keyOf x)).isLE then r :: x :: xs
    else x :: insertByNumber r xs

/-- Sort rows by ascending company_number (the deterministic tie order of spec
section 4.6). -/
def sortByNumber : List CompanyRow → List CompanyRow
  | [] => []
  | x :: xs => insertByNumber x (sortByNumber xs)

/-- Modelled from the spec: the storage collaborator's text-ranking primitive
over searchText, abstracted as a word match against the stored search
vector's source text. -/
def rowMatches (q : String) (r : CompanyRow) : Bool :=
  (((r.search_vector.getD (to_tsvector "english" "")).source).splitOn " ").contains q

/-- Is a query empty or blank (only whitespace)? -/
def isBlank (s : String) : Bool :=
  s.data.all Char.isWhitespace

/-- Modelled from the spec: the Search operation of the absent backend (spec
section 4.6) — fails with InvalidArgument if the query is empty or blank,
otherwise returns the requested page of matching rows ordered by
company_number plus the total match count. -/
def search (query : String) (page perPage : Nat) (store : List CompanyRow) :
    Except ApiError SearchResponse :=
  if isBlank query then
    .error .InvalidArgument
  else
    let matching := sortByNumber (store.filter (rowMatches query))
    .ok ⟨(matching.drop ((page - 1) * perPage)).take perPage, matching.length⟩

/-- Modelled from the spec: the GET /search route — 400 Bad Request if the
query is missing or blank, 200 OK otherwise (spec section 6). -/
def httpSearch (query : String) (page perPage : Nat) (store : List CompanyRow) :
    Nat × Except ApiError SearchResponse :=
  match search query page perPage store with
  | .error e => (400, .error e)
  | .ok r => (200, .ok r)

/-- Modelled from the spec: CompanyLookup of the absent backend (spec section
4.6) — the stored record with that key, or NotFound. -/
def companyLookup (k : String) (store : List CompanyRow) :
    Except ApiError CompanyRow :=
  match lookupRow k store with
  | some r => .ok r
  | none => .error .NotFound

/-- Modelled from the spec: the GET /company route — 200 OK with the record,
or 404 Not Found (spec section 6). -/
def httpCompany (k : String) (store : List CompanyRow) :
    Nat × Except ApiError CompanyRow :=
  match companyLookup k store with
  | .ok r => (200, .ok r)
  | .error e => (404, .error e)

/-- JavaScript truthiness of an optional string field: absent and the empty
string are falsy, every other string truthy. -/
def truthy (v : Option String) : Bool :=
  match v with
  | none => false
  | some s => !(s == "")

/-- formatAddress from src/react-native-app/App.js lines 397-412 (identical in
src/uk-companies-app/App.js lines 188-203): null address gives 'N/A';
otherwise the truthy fields are pushed in fixed order — care_of rendered as
'c/o ' followed by the value, po_box as 'PO Box ' followed by the value, the
remaining six fields verbatim — and joined by newlines. -/
def formatAddress (address : Option Address) : String :=
  match address with
  | none => "N/A"
  | some a =>
    let parts : List String :=
      (if truthy a.care_of then ["c/o " ++ a.care_of.getD ""] else []) ++
      (if truthy a.po_box then ["PO Box " ++ a.po_box.getD ""] else []) ++
      (if truthy a.address_line_1 then [a.address_line_1.getD ""] else []) ++
      (if truthy a.address_line_2 then [a.address_line_2.getD ""] else []) ++
      (if truthy a.town then [a.town.getD ""] else []) ++
      (if truthy a.county then [a.county.getD ""] else []) ++
      (if truthy a.country then [a.country.getD ""] else []) ++
      (if truthy a.postcode then [a.postcode.getD ""] else [])
    String.intercalate "\n" parts

/-- The rendering claim C10 literally describes: the present (truthy) fields
themselves, joined by newlines in the fixed order careOf, poBox, line1, line2,
town, county, country, postcode — written from the claim's words for
comparison with formatAddress. -/
def formatAddressClaimed (address : Option Address) : String :=
  match address with
  | none => "N/A"
  | some a =>
    let parts : List String :=
      [a.care_of, a.po_box, a.address_line_1, a.address_line_2,
       a.town, a.county, a.country, a.postcode].filterMap
        (fun v => match v with
          | some s => if s == "" then none else some s
          | none => none)
    String.intercalate "\n" parts

/-- One labelled optional field rendered the way formatAddress pushes it:
nothing when falsy, the label followed by the value when truthy. -/
def renderField (p : String × Option String) : Option String :=
  match p.2 with
  | some s => if s == "" then none else some (p.1 ++ s)
  | none => none

/-- The rendering of the amended claim C10: the truthy fields in the fixed
order, care_of labelled 'c/o ' and po_box labelled 'PO Box ', joined by
newlines. -/
def formatAddressAmended (address : Option Address) : String :=
  match address with
  | none => "N/A"
  | some a =>
    String.intercalate "\n"
      ([("c/o ", a.care_of), ("PO Box ", a.po_box),
        ("", a.address_line_1), ("", a.address_line_2),
        ("", a.town), ("", a.county), ("", a.country),
        ("", a.postcode)].filterMap renderField)

/-- An address whose only field is care_of, for the C10 counterexample. -/
def addrCareOfOnly : Address :=
  ⟨some "Jane Smith", none, none, none, none, none, none, none⟩

/-- An empty address sub-record, for concrete test records. -/
def emptyAddress : Address :=
  ⟨none, none, none, none, none, none, none, none⟩

/-- A concrete record, key 00000001. -/
def rec1 : CompanyRecord :=
  ⟨"00000001", some "Acme Ltd", emptyAddress, none, none, none, none, none⟩

/-- The store holding exactly rec1. -/
def store1 : List CompanyRow :=
  upsert rec1 []

/-- A concrete record whose business key is 11 characters long. -/
def recLong : CompanyRecord :=
  ⟨"ABCDEFGHIJK", none, emptyAddress, none, none, none, none, none⟩

/-- A job status is active exactly when it is Downloading or Processing. -/
theorem jobActive_iff (s : JobStatus) :
    jobActive s = true ↔ (s = .Downloading ∨ s = .Processing) := by
  cases s <;> simp [jobActive]

/-- Claim C3: on every insert or update of a company row, the stored
search_vector is recomputed by the trigger as the tsvector of the
space-separated concatenation of all fourteen coalesced textual attributes
(name, number, the eight address fields, category, status, country of origin,
SIC codes), and the stored value does not depend on any search_vector a
caller may have set on the incoming row. -/
theorem search_vector_recomputed (row : CompanyRow) (v : Option TsVector) :
    (writeRow row).search_vector =
      some (to_tsvector "english"
        (coalesce row.company_name ++ " " ++
         coalesce row.company_number ++ " " ++
         coalesce row.reg_address_care_of ++ " " ++
         coalesce row.reg_address_po_box ++ " " ++
         coalesce row.reg_address_line_1 ++ " " ++
         coalesce row.reg_address_line_2 ++ " " ++
         coalesce row.reg_address_town ++ " " ++
         coalesce row.reg_address_county ++ " " ++
         coalesce row.reg_address_country ++ " " ++
         coalesce row.reg_address_postcode ++ " " ++
         coalesce row.company_category ++ " " ++
         coalesce row.company_status ++ " " ++
         coalesce row.country_of_origin ++ " " ++
         coalesce row.sic_codes)) ∧
    (writeRow { row with search_vector := v }).search_vector =
      (writeRow row).search_vector :=
  ⟨rfl, rfl⟩

/-- Claim C9: the trigger is total over partial rows — every written row,
including the row in which every nullable column is NULL, ends up with a
defined (non-NULL) search_vector, each field coalesced to the empty string
before concatenation. -/
theorem search_vector_total_on_nulls (row : CompanyRow) :
    ((writeRow row).search_vector).isSome = true ∧
    (writeRow allNullRow).search_vector =
      some (to_tsvector "english" "             ") :=
  ⟨rfl, by decide⟩

/-- Claim C4: completionPercentage is derived from the counters, not stored on
the job: it is 0 when totalRecords is 0 (never a division by zero), otherwise
100 * processedRecords / totalRecords clamped to at most 100, and it always
lies within the interval from 0 to 100. -/
theorem completionPercentage_derived_clamped (j : IngestJob) :
    (getStatus j).completionPercentage
        = completionPercentage j.processedRecords j.totalRecords ∧
    (j.totalRecords = 0 → (getStatus j).completionPercentage = 0) ∧
    (j.totalRecords ≠ 0 →
      (getStatus j).completionPercentage
        = min (100 * j.processedRecords / j.totalRecords) 100) ∧
    (getStatus j).completionPercentage ≤ 100 := by
  refine ⟨rfl, ?_, ?_, ?_⟩
  · intro h
    simp [getStatus, completionPercentage, h]
  · intro h
    simp [getStatus, completionPercentage, h]
  · by_cases h : j.totalRecords = 0
    · simp [getStatus, completionPercentage, h]
    · simp only [getStatus, completionPercentage, if_neg h]
      exact Nat.min_le_right _ _

/-- Witness for C4 at the initial job, whose totalRecords is 0. -/
theorem completionPercentage_derived_clamped_witness :
    initialJob.totalRecords = 0 ∧ (getStatus initialJob).completionPercentage = 0 :=
  ⟨rfl, (completionPercentage_derived_clamped initialJob).2.1 rfl⟩

/-- Claim C6: an accepted start is answered 202 with no body; a start issued
while a run is active (status Downloading or Processing) is answered 409 with
body error = "already running". -/
theorem postIngestStart_http_contract (now : Nat) (j : IngestJob) :
    ((startIngestion now j).1 = .Accepted →
      (postIngestStart now j).1 = (202, none)) ∧
    (jobActive j.status = true →
      (postIngestStart now j).1 = (409, some ⟨"already running"⟩)) := by
  by_cases hA : jobActive j.status = true <;>
    constructor <;> intro h <;>
      simp_all [postIngestStart, startIngestion]

/-- Witness for C6: the idle job accepts with 202, the running job rejects
with 409 and the error body. -/
theorem postIngestStart_http_contract_witness :
    ((startIngestion 0 initialJob).1 = .Accepted ∧
      (postIngestStart 0 initialJob).1 = (202, none)) ∧
    (jobActive (runningJob 0).status = true ∧
      (postIngestStart 1 (runningJob 0)).1 = (409, some ⟨"already running"⟩)) :=
  ⟨⟨rfl, (postIngestStart_http_contract 0 initialJob).1 rfl⟩,
   ⟨rfl, (postIngestStart_http_contract 1 (runningJob 0)).2 rfl⟩⟩

/-- Counterexample to claim C10 as stated: for the address whose only field is
care_of = "Jane Smith", formatAddress returns "c/o Jane Smith", not the bare
field value "Jane Smith" that joining the present fields themselves would
give. -/
theorem formatAddress_claim_counterexample :
    formatAddress (some addrCareOfOnly) = "c/o Jane Smith" ∧
    formatAddressClaimed (some addrCareOfOnly) = "Jane Smith" ∧
    formatAddress (some addrCareOfOnly) ≠ formatAddressClaimed (some addrCareOfOnly) := by
  refine ⟨?_, ?_, ?_⟩ <;> decide

/-- One labelled field renders to the singleton the code pushes when truthy
and to nothing when falsy. -/
theorem renderField_toList (label : String) (v : Option String) :
    (renderField (label, v)).toList =
      if truthy v then [label ++ v.getD ""] else [] := by
  cases v with
  | none => rfl
  | some s =>
    by_cases h : s = "" <;> simp [renderField, truthy, h]

/-- filterMap over a cons is the rendered head appended to the tail. -/
theorem filterMap_cons_toList {α β : Type} (f : α → Option β) (a : α) (l : List α) :
    (a :: l).filterMap f = (f a).toList ++ l.filterMap f := by
  cases h : f a <;> simp [List.filterMap_cons, h]

/-- Claim C10 (amended): formatAddress is pure; a null address gives exactly
"N/A", and any address object gives the truthy fields in the fixed order
careOf, poBox, line1, line2, town, county, country, postcode joined by
newlines, with careOf labelled "c/o " and poBox labelled "PO Box ", absent or
empty fields omitted entirely. -/
theorem formatAddress_amended (address : Option Address) :
    formatAddress none = "N/A" ∧
    formatAddress address = formatAddressAmended address := by
  refine ⟨rfl, ?_⟩
  cases address with
  | none => rfl
  | some a =>
    simp only [formatAddress, formatAddressAmended, filterMap_cons_toList,
      List.filterMap_nil, renderField_toList, List.append_nil,
      List.append_assoc, String.empty_append]

/-- From an active job, every serialized start is rejected and the state is
untouched. -/
theorem serializeStarts_of_active (now : Nat) (n : Nat) (j : IngestJob)
    (h : jobActive j.status = true) :
    serializeStarts now n j = (List.replicate n .AlreadyRunning, j) := by
  induction n with
  | zero => rfl
  | succ n ih =>
    simp [serializeStarts, startIngestion, h, ih, List.replicate_succ]

/-- Claim C1: StartIngestion fails with AlreadyRunning exactly when the status
is Downloading or Processing; a rejected start changes nothing; an accepted
start transitions to Downloading, records startedAt and zeroes the counters;
and for any n serialized concurrent starts racing from a non-active state,
exactly one is accepted and the other n - 1 return AlreadyRunning. -/
theorem startIngestion_single_flight (now : Nat) (j : IngestJob) (n : Nat)
    (hn : 1 ≤ n) :
    ((startIngestion now j).1 = .AlreadyRunning ↔
      (j.status = .Downloading ∨ j.status = .Processing)) ∧
    ((startIngestion now j).1 = .AlreadyRunning → (startIngestion now j).2 = j) ∧
    ((startIngestion now j).1 = .Accepted →
      ((startIngestion now j).2.status = .Downloading ∧
       (startIngestion now j).2.startedAt = some now ∧
       (startIngestion now j).2.totalRecords = 0 ∧
       (startIngestion now j).2.processedRecords = 0 ∧
       (startIngestion now j).2.errorRecords = 0)) ∧
    (jobActive j.status = false →
      ((serializeStarts now n j).1.count .Accepted = 1 ∧
       (serializeStarts now n j).1.count .AlreadyRunning = n - 1)) := by
  obtain ⟨m, rfl⟩ : ∃ m, n = m + 1 := ⟨n - 1, by omega⟩
  by_cases hA : jobActive j.status = true
  · have hDP := (jobActive_iff j.status).mp hA
    refine ⟨iff_of_true (by simp [startIngestion, hA]) hDP, ?_, ?_, ?_⟩
    · intro _
      simp [startIngestion, hA]
    · intro hAcc
      simp [startIngestion, hA] at hAcc
    · intro hF
      rw [hF] at hA
      simp at hA
  · have hFalse : jobActive j.status = false := by
      cases hjb : jobActive j.status
      · rfl
      · exact absurd hjb hA
    have hDP : ¬(j.status = .Downloading ∨ j.status = .Processing) :=
      fun hd => hA ((jobActive_iff j.status).mpr hd)
    have hser : serializeStarts now (m + 1) j =
        (.Accepted :: List.replicate m .AlreadyRunning, runningJob now) := by
      simp [serializeStarts, startIngestion, hFalse,
        serializeStarts_of_active now m (runningJob now) rfl]
    refine ⟨?_, ?_, ?_, ?_⟩
    · constructor
      · intro hAR
        simp [startIngestion, hFalse] at hAR
      · intro hd
        exact absurd hd hDP
    · intro hAR
      simp [startIngestion, hFalse] at hAR
    · intro _
      simp [startIngestion, hFalse, runningJob]
    · intro _
      rw [hser]
      constructor
      · simp [List.count_cons, List.count_replicate]
      · simp [List.count_cons, List.count_replicate]

/-- Witness for C1: three concurrent starts against the idle job — one
accepted, two rejected. -/
theorem startIngestion_single_flight_witness :
    1 ≤ 3 ∧ jobActive initialJob.status = false ∧
    ((serializeStarts 0 3 initialJob).1.count .Accepted = 1 ∧
     (serializeStarts 0 3 initialJob).1.count .AlreadyRunning = 2) :=
  ⟨by decide, rfl,
   (startIngestion_single_flight 0 initialJob 3 (by decide)).2.2.2 rfl⟩

/-- Claim C5: a search whose query is empty or blank fails with
InvalidArgument and is answered 400 with no result payload; a search with a
non-blank query succeeds with an ordered result page plus a total, answered
200. -/
theorem search_rejects_blank (query : String) (page perPage : Nat)
    (store : List CompanyRow) :
    (isBlank query = true →
      (search query page perPage store = .error .InvalidArgument ∧
       (httpSearch query page perPage store).1 = 400)) ∧
    (isBlank query = false →
      ∃ r : SearchResponse,
        search query page perPage store = .ok r ∧
        (httpSearch query page perPage store).1 = 200) := by
  constructor
  · intro h
    constructor
    · simp [search, h]
    · simp [httpSearch, search, h]
  · intro h
    have hs : search query page perPage store =
        .ok ⟨((sortByNumber (store.filter (rowMatches query))).drop
                ((page - 1) * perPage)).take perPage,
             (sortByNumber (store.filter (rowMatches query))).length⟩ := by
      simp [search, h]
    exact ⟨_, hs, by simp [httpSearch, hs]⟩

/-- Witness for C5: the blank query "  " is rejected with 400; the query
"acme" succeeds with 200, both over the empty store. -/
theorem search_rejects_blank_witness :
    (isBlank "  " = true ∧
      (search "  " 1 20 [] = .error .InvalidArgument ∧
       (httpSearch "  " 1 20 []).1 = 400)) ∧
    (isBlank "acme" = false ∧
      ∃ r : SearchResponse,
        search "acme" 1 20 [] = .ok r ∧ (httpSearch "acme" 1 20 []).1 = 200) :=
  ⟨⟨by decide, (search_rejects_blank "  " 1 20 []).1 (by decide)⟩,
   ⟨by decide, (search_rejects_blank "acme" 1 20 []).2 (by decide)⟩⟩

/-- keysOf of a cons whose head carries a key. -/
theorem keysOf_cons_some (x : CompanyRow) (xs : List CompanyRow) (k : String)
    (hx : x.company_number = some k) :
    keysOf (x :: xs) = k :: keysOf xs := by
  simp [keysOf, List.filterMap_cons, hx]

/-- keysOf of a cons whose head has a NULL key. -/
theorem keysOf_cons_none (x : CompanyRow) (xs : List CompanyRow)
    (hx : x.company_number = none) :
    keysOf (x :: xs) = keysOf xs := by
  simp [keysOf, List.filterMap_cons, hx]

/-- keysOf distributes over append. -/
theorem keysOf_append (s t : List CompanyRow) :
    keysOf (s ++ t) = keysOf s ++ keysOf t := by
  simp [keysOf, List.filterMap_append]

/-- A store has a row for key k exactly when k is among its keys. -/
theorem any_hasKey_iff (k : String) (s : List CompanyRow) :
    s.any (hasKey k) = true ↔ k ∈ keysOf s := by
  simp [List.any_eq_true, hasKey, keysOf, List.mem_filterMap]

/-- Overwriting the rows that carry key k with a row that carries key k leaves
the key list unchanged. -/
theorem keysOf_map_overwrite (k : String) (nrow : CompanyRow)
    (hk : nrow.company_number = some k) (s : List CompanyRow) :
    keysOf (s.map (fun r => if hasKey k r then nrow else r)) = keysOf s := by
  induction s with
  | nil => rfl
  | cons x xs ih =>
    simp only [List.map_cons]
    by_cases hx : hasKey k x = true
    · have hxk : x.company_number = some k := by simpa [hasKey] using hx
      rw [if_pos hx, keysOf_cons_some _ _ _ hk, keysOf_cons_some _ _ _ hxk, ih]
    · rw [if_neg hx]
      cases hxo : x.company_number with
      | none => rw [keysOf_cons_none _ _ hxo, keysOf_cons_none _ _ hxo, ih]
      | some k2 => rw [keysOf_cons_some _ _ _ hxo, keysOf_cons_some _ _ _ hxo, ih]

/-- The keys after an upsert: unchanged when the key was present, the key
appended when it was absent. -/
theorem keysOf_upsert (rec : CompanyRecord) (s : List CompanyRow) :
    keysOf (upsert rec s) =
      if rec.company_number ∈ keysOf s then keysOf s
      else keysOf s ++ [rec.company_number] := by
  by_cases hp : rec.company_number ∈ keysOf s
  · rw [if_pos hp]
    have ha : s.any (hasKey rec.company_number) = true := (any_hasKey_iff _ _).mpr hp
    rw [upsert, if_pos ha]
    exact keysOf_map_overwrite rec.company_number (writeRow (toRow rec)) rfl s
  · rw [if_neg hp]
    have ha : ¬ s.any (hasKey rec.company_number) = true := by
      intro h2
      exact hp ((any_hasKey_iff _ _).mp h2)
    rw [upsert, if_neg ha, keysOf_append]
    rfl

/-- Upserting a key already present does not change the row count. -/
theorem length_upsert_mem (rec : CompanyRecord) (s : List CompanyRow)
    (h : rec.company_number ∈ keysOf s) :
    (upsert rec s).length = s.length := by
  have ha : s.any (hasKey rec.company_number) = true := (any_hasKey_iff _ _).mpr h
  rw [upsert, if_pos ha, List.length_map]

/-- Every key of the store survives an upsert. -/
theorem keysOf_upsert_subset (rec : CompanyRecord) (s : List CompanyRow) :
    ∀ k ∈ keysOf s, k ∈ keysOf (upsert rec s) := by
  intro k hk
  rw [keysOf_upsert]
  split
  · exact hk
  · exact List.mem_append_left _ hk

/-- The upserted key is among the keys afterwards. -/
theorem mem_keysOf_upsert_self (rec : CompanyRecord) (s : List CompanyRow) :
    rec.company_number ∈ keysOf (upsert rec s) := by
  rw [keysOf_upsert]
  split
  · assumption
  · exact List.mem_append_right _ (by simp)

/-- Ingesting a cons is upserting the head and ingesting the tail. -/
theorem ingest_cons (r : CompanyRecord) (ds : List CompanyRecord)
    (t : List CompanyRow) :
    ingest (r :: ds) t = ingest ds (upsert r t) :=
  rfl

/-- Every key of the store survives an ingest. -/
theorem keysOf_ingest_subset (ds : List CompanyRecord) :
    ∀ (t : List CompanyRow) (k : String),
      k ∈ keysOf t → k ∈ keysOf (ingest ds t) := by
  induction ds with
  | nil =>
    intro t k hk
    exact hk
  | cons r ds ih =>
    intro t k hk
    rw [ingest_cons]
    exact ih _ k (keysOf_upsert_subset r t k hk)

/-- After ingesting a dataset, every record's key is among the stored keys. -/
theorem ingest_keys_present (ds : List CompanyRecord) :
    ∀ (t : List CompanyRow) (rec : CompanyRecord), rec ∈ ds →
      rec.company_number ∈ keysOf (ingest ds t) := by
  induction ds with
  | nil =>
    intro t rec h
    exact absurd h (List.not_mem_nil rec)
  | cons r ds ih =>
    intro t rec h
    rw [ingest_cons]
    rcases List.mem_cons.mp h with rfl | h2
    · exact keysOf_ingest_subset ds (upsert rec t) _ (mem_keysOf_upsert_self rec t)
    · exact ih _ rec h2

/-- Ingesting a dataset whose keys are all already stored does not change the
row count. -/
theorem ingest_length_of_present (ds : List CompanyRecord) :
    ∀ t : List CompanyRow, (∀ rec ∈ ds, rec.company_number ∈ keysOf t) →
      (ingest ds t).length = t.length := by
  induction ds with
  | nil =>
    intro t _
    rfl
  | cons r ds ih =>
    intro t h
    rw [ingest_cons]
    have h1 : r.company_number ∈ keysOf t := h r (List.mem_cons_self r ds)
    have h2 : ∀ rec ∈ ds, rec.company_number ∈ keysOf (upsert r t) := by
      intro rec hrec
      exact keysOf_upsert_subset r t _ (h rec (List.mem_cons_of_mem r hrec))
    rw [ih (upsert r t) h2, length_upsert_mem r t h1]

/-- find? over the overwriting map yields the new row exactly when some row
carried the key. -/
theorem find_map_overwrite (k : String) (nrow : CompanyRow)
    (hnk : hasKey k nrow = true) (s : List CompanyRow) :
    (s.map (fun r => if hasKey k r then nrow else r)).find? (hasKey k) =
      if s.any (hasKey k) then some nrow else none := by
  induction s with
  | nil => rfl
  | cons x xs ih =>
    by_cases hx : hasKey k x = true
    · simp [List.map_cons, hx, List.find?, hnk, List.any_cons]
    · simp [List.map_cons, hx, List.find?, List.any_cons, ih]

/-- find? over an append whose first part has no match searches the second. -/
theorem find_append_none {p : CompanyRow → Bool} :
    ∀ (s t : List CompanyRow), s.find? p = none →
      (s ++ t).find? p = t.find? p := by
  intro s
  induction s with
  | nil =>
    intro t _
    rfl
  | cons x xs ih =>
    intro t h
    cases hx : p x
    · have hx2 : ¬ p x = true := by simp [hx]
      rw [List.find?_cons_of_neg _ hx2] at h
      rw [List.cons_append, List.find?_cons_of_neg _ hx2]
      exact ih t h
    · rw [List.find?_cons_of_pos _ hx] at h
      exact Option.noConfusion h

/-- Looking up the upserted key returns exactly the freshly written row. -/
theorem lookup_upsert (rec : CompanyRecord) (s : List CompanyRow) :
    lookupRow rec.company_number (upsert rec s) = some (writeRow (toRow rec)) := by
  have hnk : hasKey rec.company_number (writeRow (toRow rec)) = true := by
    have hkey : (writeRow (toRow rec)).company_number = some rec.company_number := rfl
    simp [hasKey, hkey]
  by_cases hp : s.any (hasKey rec.company_number) = true
  · rw [upsert, if_pos hp, lookupRow, find_map_overwrite _ _ hnk s, if_pos hp]
  · have hp2 : s.any (hasKey rec.company_number) = false := by
      cases h2 : s.any (hasKey rec.company_number)
      · rfl
      · exact absurd h2 hp
    have hfs : s.find? (hasKey rec.company_number) = none := by
      rw [List.find?_eq_none]
      intro x hx hcon
      have : s.any (hasKey rec.company_number) = true :=
        List.any_eq_true.mpr ⟨x, hx, hcon⟩
      rw [this] at hp2
      exact Bool.noConfusion hp2
    rw [upsert, if_neg hp, lookupRow, find_append_none s _ hfs]
    simp [List.find?, hnk]

/-- Claim C2: the key list stays duplicate-free across an upsert; upserting a
key already present overwrites in place (same row count, the lookup afterwards
returns exactly the new row); and re-ingesting an unchanged dataset leaves the
total record count unchanged. -/
theorem companyNumber_unique_upsert (rec : CompanyRecord) (s t : List CompanyRow)
    (ds : List CompanyRecord) (h : (keysOf s).Nodup) :
    (keysOf (upsert rec s)).Nodup ∧
    (rec.company_number ∈ keysOf s → (upsert rec s).length = s.length) ∧
    lookupRow rec.company_number (upsert rec s) = some (writeRow (toRow rec)) ∧
    (ingest ds (ingest ds t)).length = (ingest ds t).length := by
  refine ⟨?_, fun hp => length_upsert_mem rec s hp, lookup_upsert rec s, ?_⟩
  · rw [keysOf_upsert]
    split
    · exact h
    · next hnp => simp [List.nodup_append, h, hnp]
  · exact ingest_length_of_present ds (ingest ds t)
      (fun r hr => ingest_keys_present ds t r hr)

/-- Witness for C2 at the singleton store holding rec1: keys duplicate-free
and re-upserting rec1 keeps the count at one. -/
theorem companyNumber_unique_upsert_witness :
    (keysOf store1).Nodup ∧ rec1.company_number ∈ keysOf store1 ∧
      (upsert rec1 store1).length = store1.length :=
  ⟨by decide, by decide,
   (companyNumber_unique_upsert rec1 store1 [] [] (by decide)).2.1 (by decide)⟩

/-- In a store with duplicate-free keys, find? locates exactly the stored row
carrying the key. -/
theorem find_row_of_nodup (k : String) (r : CompanyRow) :
    ∀ s : List CompanyRow, (keysOf s).Nodup → r ∈ s →
      r.company_number = some k → lookupRow k s = some r := by
  intro s
  induction s with
  | nil =>
    intro _ hmem _
    exact absurd hmem (List.not_mem_nil r)
  | cons x xs ih =>
    intro hnd hmem hkey
    rcases List.mem_cons.mp hmem with rfl | hmem2
    · have hx : hasKey k r = true := by simp [hasKey, hkey]
      rw [lookupRow, List.find?_cons_of_pos _ hx]
    · have hx : ¬ hasKey k x = true := by
        intro hb
        have hxk : x.company_number = some k := by simpa [hasKey] using hb
        have hkin : k ∈ keysOf xs := by
          simp only [keysOf, List.mem_filterMap]
          exact ⟨r, hmem2, hkey⟩
        rw [keysOf_cons_some _ _ _ hxk] at hnd
        exact (List.nodup_cons.mp hnd).1 hkin
      have hnd2 : (keysOf xs).Nodup := by
        cases hxo : x.company_number with
        | none =>
          rw [keysOf_cons_none _ _ hxo] at hnd
          exact hnd
        | some k2 =>
          rw [keysOf_cons_some _ _ _ hxo] at hnd
          exact (List.nodup_cons.mp hnd).2
      rw [lookupRow, List.find?_cons_of_neg _ hx]
      exact ih hnd2 hmem2 hkey

/-- Claim C7: over a store with duplicate-free keys, CompanyLookup returns the
stored record with the requested key (HTTP 200) when one exists, fails with
NotFound (HTTP 404) when no stored row carries the key, and on the empty store
every lookup yields NotFound. -/
theorem companyLookup_contract (k : String) (store : List CompanyRow)
    (h : (keysOf store).Nodup) :
    (∀ r ∈ store, r.company_number = some k →
      (companyLookup k store = .ok r ∧ httpCompany k store = (200, .ok r))) ∧
    ((∀ r ∈ store, r.company_number ≠ some k) →
      (companyLookup k store = .error .NotFound ∧ (httpCompany k store).1 = 404)) ∧
    companyLookup k [] = .error .NotFound := by
  refine ⟨?_, ?_, rfl⟩
  · intro r hr hkey
    have hf := find_row_of_nodup k r store h hr hkey
    constructor
    · simp [companyLookup, hf]
    · simp [httpCompany, companyLookup, hf]
  · intro hnone
    have hf : lookupRow k store = none := by
      rw [lookupRow, List.find?_eq_none]
      intro x hx hcon
      have hxk : x.company_number = some k := by simpa [hasKey] using hcon
      exact hnone x hx hxk
    constructor
    · simp [companyLookup, hf]
    · simp [httpCompany, companyLookup, hf]

/-- Witness for C7: the key 00000001 is found in the singleton store, and the
lookup of 99999999 on the empty store yields NotFound. -/
theorem companyLookup_contract_witness :
    (keysOf store1).Nodup ∧
    (companyLookup "00000001" store1 = .ok (writeRow (toRow rec1)) ∧
      httpCompany "00000001" store1 = (200, .ok (writeRow (toRow rec1)))) ∧
    companyLookup "99999999" ([] : List CompanyRow) = .error .NotFound :=
  ⟨by decide,
   (companyLookup_contract "00000001" store1 (by decide)).1
     (writeRow (toRow rec1)) (by decide) (by decide),
   (companyLookup_contract "99999999" [] (by decide)).2.2⟩

/-- Every row of an upserted store is an old row or the freshly written row. -/
theorem mem_upsert (rec : CompanyRecord) (s : List CompanyRow) (r : CompanyRow)
    (h : r ∈ upsert rec s) : r ∈ s ∨ r = writeRow (toRow rec) := by
  rw [upsert] at h
  split at h
  · obtain ⟨a, ha, hae⟩ := List.mem_map.mp h
    by_cases hk : hasKey rec.company_number a = true
    · right
      rw [← hae]
      simp [hk]
    · left
      rw [← hae]
      simpa [hk] using ha
  · rcases List.mem_append.mp h with h1 | h1
    · exact Or.inl h1
    · exact Or.inr (List.mem_singleton.mp h1)

/-- Claim C8: a checked upsert whose business key exceeds 10 characters is
rejected by the storage collaborator (VARCHAR(10)), and every store reachable
through accepted checked upserts only holds company numbers of at most 10
characters. -/
theorem companyNumber_varchar10 (rec : CompanyRecord) (s : List CompanyRow)
    (h : ∀ r ∈ s, ∀ k, r.company_number = some k → k.length ≤ 10) :
    (10 < rec.company_number.length →
      checkedUpsert rec s = .error .ValueTooLong) ∧
    (∀ t, checkedUpsert rec s = .ok t →
      ∀ r ∈ t, ∀ k, r.company_number = some k → k.length ≤ 10) := by
  constructor
  · intro hl
    have hfit : varcharFits 10 rec.company_number = false := by
      simp only [varcharFits, decide_eq_false_iff_not]
      omega
    rw [checkedUpsert, if_neg (by simp [hfit])]
  · intro t ht r hr k hk
    by_cases hf : varcharFits 10 rec.company_number = true
    · rw [checkedUpsert, if_pos hf] at ht
      have hts : upsert rec s = t := by
        injection ht
      rcases mem_upsert rec s r (by rw [hts]; exact hr) with h1 | h1
      · exact h r h1 k hk
      · have hkey : (writeRow (toRow rec)).company_number = some rec.company_number := rfl
        rw [h1, hkey] at hk
        have hkk : rec.company_number = k := Option.some_inj.mp hk
        have hfit : rec.company_number.length ≤ 10 := by
          simpa [varcharFits] using hf
        rw [← hkk]
        exact hfit
    · have hf2 : varcharFits 10 rec.company_number = false := by
        cases h2 : varcharFits 10 rec.company_number
        · rfl
        · exact absurd h2 hf
      rw [checkedUpsert, if_neg (by simp [hf2])] at ht
      exact Except.noConfusion ht

/-- Witness for C8: the empty store satisfies the invariant and the
11-character key ABCDEFGHIJK is rejected. -/
theorem companyNumber_varchar10_witness :
    (∀ r ∈ ([] : List CompanyRow), ∀ k, r.company_number = some k → k.length ≤ 10) ∧
    (10 < recLong.company_number.length ∧
      checkedUpsert recLong [] = .error .ValueTooLong) :=
  ⟨by simp,
   by decide,
   (companyNumber_varchar10 recLong [] (by simp)).1 (by decide)⟩
